import Mathlib

/-!
Shallow embedding of `txconnpool/pool.py`: a Twisted client connection pool.

The pool keeps a set of free client handles, a set of busy handles, a counter
of in-flight connection attempts, a FIFO list of queued commands, a server
list with a round-robin cursor, a map of temporarily excluded servers
(`_serverOORRecords`, keyed by `reprForIPv4Address`), and shutdown flags.

Conventions of the embedding:
* Client handles (protocol instances) are `Nat` identifiers; the Python `set`s
  `_freeClients` / `_busyClients` become `Finset Nat`.
* `time.time()` is injected as an explicit `now : Nat` argument to the
  operations that read the clock.
* Twisted `Deferred` completion is explicit: a completed deferred carries a
  `DeferredResult`; `addCallback` runs its function only on a success result
  (a `Failure` flows past plain callbacks), which the embedding mirrors.
* `set.pop()` removes an arbitrary element; the embedding takes the popped
  element `chosen` as a parameter, so theorems hold for every possible pop.
* Each Python callback is an atomic state transformer; asynchronous waits
  (connection establishment, request execution) are separate events.
-/

namespace Txconnpool

/-- An IPv4-style address as consumed by `reprForIPv4Address` in the source:
a `type` tag, a `host` and a `port`. -/
structure Address where
  type : String
  host : String
  port : Nat
deriving DecidableEq, Inhabited

/-- `reprForIPv4Address(address)`: the string
`"{}{}:{}".format(address.type, address.host, address.port)`,
used as the key of the out-of-rotation dictionary. -/
def reprForIPv4Address (a : Address) : String :=
  a.type ++ a.host ++ ":" ++ toString a.port

/-- Lookup in the `_serverOORRecords` dictionary (modelled as an association
list from server key to expiry time). -/
def oorLookup : List (String × Nat) → String → Option Nat
  | [], _ => none
  | (k, v) :: rest, key => if k = key then some v else oorLookup rest key

/-- `del oor[key]`: remove the binding for `key`. -/
def oorDelete (m : List (String × Nat)) (k : String) : List (String × Nat) :=
  m.filter (fun p => p.1 ≠ k)

/-- `oor[key] = v`: overwrite the binding for `key`. -/
def oorInsert (m : List (String × Nat)) (k : String) (v : Nat) : List (String × Nat) :=
  (k, v) :: oorDelete m k

/-- One entry of `_commands`: the tuple `(d, method, args, kwargs)` queued by
`performRequest`.  `handleId` identifies the `Deferred` handed to the caller;
the argument values are opaque. -/
structure PendingCmd where
  handleId : Nat
  method : String
  args : List Nat
  kwargs : List (String × Nat)
deriving DecidableEq

/-- The mutable state of a `Pool` instance.  `factories` abstracts the list
`_factories` by its length (only its emptying at shutdown is observable
here); `shutdownDeferredSet` says `shutdown_deferred` is not `None`, and
`shutdownDeferredFired` that it has been called back. -/
structure PoolState where
  serverAddresses : List Address
  serverOORRecords : List (String × Nat)
  nextServerIndex : Int
  maxClients : Nat
  busyClients : Finset Nat
  freeClients : Finset Nat
  pendingConnects : Nat
  commands : List PendingCmd
  factories : Nat
  shutdownRequested : Bool
  shutdownDeferredSet : Bool
  shutdownDeferredFired : Bool
  forceShutdown : Bool
deriving DecidableEq

/-- `Pool.__init__`. -/
def poolInit (serverAddresses : List Address) (maxClients : Nat)
    (forceShutdown : Bool) : PoolState :=
  { serverAddresses := serverAddresses
    serverOORRecords := []
    nextServerIndex := -1
    maxClients := maxClients
    busyClients := ∅
    freeClients := ∅
    pendingConnects := 0
    commands := []
    factories := 0
    shutdownRequested := false
    shutdownDeferredSet := false
    shutdownDeferredFired := false
    forceShutdown := forceShutdown }

/-- `Pool._isIdle`: no busy clients and no queued commands. -/
def isIdle (s : PoolState) : Bool :=
  s.busyClients.card == 0 && s.commands.length == 0

/-- `Pool.clientBusy`: remove the client from the free set if present, then
add it to the busy set. -/
def clientBusy (s : PoolState) (c : Nat) : PoolState :=
  let free := if c ∈ s.freeClients then s.freeClients.erase c else s.freeClients
  { s with freeClients := free, busyClients := insert c s.busyClients }

/-- The set mutations at the head of `Pool.clientFree`: remove the client from
the busy set if present, then add it to the free set.  (The shutdown check and
the queue drain that follow in the source are in `clientFreeFull`.) -/
def clientFreeSets (s : PoolState) (c : Nat) : PoolState :=
  let busy := if c ∈ s.busyClients then s.busyClients.erase c else s.busyClients
  { s with busyClients := busy, freeClients := insert c s.freeClients }

/-- `Pool.clientGone`: remove the client from the busy set if present, else
from the free set if present, else do nothing. -/
def clientGone (s : PoolState) (c : Nat) : PoolState :=
  if c ∈ s.busyClients then { s with busyClients := s.busyClients.erase c }
  else if c ∈ s.freeClients then { s with freeClients := s.freeClients.erase c }
  else s

/-- `Pool.removeServerFromRotation`: record the server key out of rotation
until `time.time() + 10`. -/
def removeServerFromRotation (s : PoolState) (now : Nat) (a : Address) : PoolState :=
  { s with serverOORRecords :=
      oorInsert s.serverOORRecords (reprForIPv4Address a) (now + 10) }

/-- `Pool.clientFailed`: take the destination server out of rotation, then
`clientGone` on the protocol instance when there is one (`if client:`). -/
def clientFailed (s : PoolState) (client : Option Nat) (connectorDest : Address)
    (now : Nat) : PoolState :=
  let s1 := removeServerFromRotation s now connectorDest
  match client with
  | some c => clientGone s1 c
  | none => s1

/-- The scan loop of `Pool._nextServerAddress`: starting at `candidate`,
walk at most `fuel` positions circularly.  At each position set the cursor to
that index; return the address if its key is absent from the out-of-rotation
records, or delete the record and return the address if the record has
expired (`time.time() > expiry`); otherwise continue.  When the fuel is
exhausted (every endpoint still excluded), return `addresses[candidate]`
(fail open).  Returns (address, new cursor, new records). -/
def nextServerScan (addrs : List Address) (now candidate : Nat) :
    Nat → Nat → List (String × Nat) → Int → Address × Int × List (String × Nat)
  | _, 0, oor, lastIdx => (addrs.getD candidate default, lastIdx, oor)
  | i, fuel + 1, oor, _ =>
    let total := addrs.length
    let eff := (candidate + i) % total
    let a := addrs.getD eff default
    let key := reprForIPv4Address a
    match oorLookup oor key with
    | some expiry =>
      if now > expiry then (a, (eff : Int), oorDelete oor key)
      else nextServerScan addrs now candidate (i + 1) fuel oor (eff : Int)
    | none => (a, (eff : Int), oor)

/-- `Pool._nextServerAddress` (a property with side effects): advance the
round-robin cursor circularly by one and scan for a selectable server. -/
def nextServerAddress (s : PoolState) (now : Nat) : Address × PoolState :=
  let total := s.serverAddresses.length
  let candidate := ((s.nextServerIndex + 1) % (total : Int)).toNat
  let r := nextServerScan s.serverAddresses now candidate 0 total
    s.serverOORRecords s.nextServerIndex
  (r.1, { s with nextServerIndex := r.2.1, serverOORRecords := r.2.2 })

/-- The errors a request's deferred can carry: `NoSuchCommand` (raised by
`_performRequestOnClient` when `getattr` finds no method) or a backend-level
failure of the invoked method itself. -/
inductive RequestError where
  | NoSuchCommand
  | operationFailure (code : Nat)
deriving DecidableEq

/-- The completed outcome of a Twisted deferred: a success value or a
`Failure`. -/
inductive DeferredResult where
  | ok (v : Nat)
  | err (e : RequestError)
deriving DecidableEq

/-- What `Pool.performRequest` decided to do for one incoming request:
execute immediately on the popped free client, append to `_commands`, or
open a new connection to the selected address. -/
inductive DispatchAction where
  | executed (client : Nat)
  | queued
  | connecting (addr : Address)
deriving DecidableEq

/-- The synchronous part of `Pool.performRequest`:
* if `len(_freeClients) > 0`, pop a client (`chosen`) and enter
  `_performRequestOnClient`, whose synchronous head marks it busy
  (the completed method outcome is a later event);
* else if `len(_busyClients) + _pendingConnects >= _maxClients`, append
  `(d, method, args, kwargs)` — the tuple `cmd` — to `_commands` and return
  the new deferred `cmd.handleId` to the caller;
* else `_newClientConnection`: increment `_pendingConnects`, register a new
  factory, select the next server address (mutating the cursor and the
  out-of-rotation records) and start a TCP connection to it. -/
def performRequestDispatch (s : PoolState) (cmd : PendingCmd) (chosen now : Nat) :
    PoolState × DispatchAction :=
  if 0 < s.freeClients.card then
    let s1 := { s with freeClients := s.freeClients.erase chosen }
    (clientBusy s1 chosen, DispatchAction.executed chosen)
  else if s.busyClients.card + s.pendingConnects ≥ s.maxClients then
    ({ s with commands := s.commands ++ [cmd] }, DispatchAction.queued)
  else
    let s1 := { s with pendingConnects := s.pendingConnects + 1,
                       factories := s.factories + 1 }
    let r := nextServerAddress s1 now
    (r.2, DispatchAction.connecting r.1)

/-- The outcome of one `Pool.clientFree` call: the new state, whether the
shutdown drain deferred was called back, and — when the command queue was
non-empty — the popped command together with the dispatch decision made for
it (the source chains that dispatch's deferred into the popped command's
already-issued deferred `cmd.handleId`). -/
structure FreeResult where
  state : PoolState
  drainFired : Bool
  drained : Option (PendingCmd × DispatchAction)
deriving DecidableEq

/-- The tail of `Pool.clientFree`: if `_commands` is non-empty, pop its
head (`_commands.pop(0)`) and re-dispatch it through `performRequest`; the
source chains the dispatch's deferred into the popped command's deferred. -/
def queueDrain (s : PoolState) (now chosen : Nat) :
    PoolState × Option (PendingCmd × DispatchAction) :=
  match s.commands with
  | [] => (s, none)
  | cmd :: rest =>
    let r := performRequestDispatch { s with commands := rest } cmd chosen now
    (r.1, some (cmd, r.2))

/-- `Pool.clientFree` in full: move the client from busy to free; then, if
`shutdown_deferred` is set and the pool is idle, call it back; then drain
one queued command if present. -/
def clientFreeFull (s : PoolState) (c now chosen : Nat) : FreeResult :=
  let s1 := clientFreeSets s c
  let fired := s1.shutdownDeferredSet && isIdle s1
  let s2 := if fired then { s1 with shutdownDeferredFired := true } else s1
  let r := queueDrain s2 now chosen
  ⟨r.1, fired, r.2⟩

/-- `Pool._performRequestOnClient` for a method whose deferred has completed
(this covers the synchronous `fail(Failure(NoSuchCommand()))` branch exactly,
and a synchronously completing method):
mark the client busy; `getattr(client, method, None)` is `methodImpl`
(`none` when the named operation is absent, otherwise the completed outcome
of `maybeDeferred(method, ...)`); then `d.addCallback(_freeClientAfterRequest)`
— a plain callback, so `clientFree` runs only when the outcome is a success,
while a `Failure` flows past it unchanged.  Returns (state, outcome delivered
to the caller's deferred). -/
def performRequestOnClient (s : PoolState) (client : Nat)
    (methodImpl : Option DeferredResult) (now chosen : Nat) :
    PoolState × DeferredResult :=
  let s1 := clientBusy s client
  let d : DeferredResult :=
    match methodImpl with
    | some r => r
    | none => DeferredResult.err RequestError.NoSuchCommand
  match d with
  | DeferredResult.ok v => ((clientFreeFull s1 client now chosen).state, DeferredResult.ok v)
  | DeferredResult.err e => (s1, DeferredResult.err e)

/-- The `_connected` callback inside `Pool._newClientConnection`: runs when a
connection attempt succeeds and the factory's deferred delivers a client
handle; it decrements `_pendingConnects`.  (It is attached with
`addCallback`, so it never runs on a failure.) -/
def connectionSucceeded (s : PoolState) : PoolState :=
  { s with pendingConnects := s.pendingConnects - 1 }

/-- `Pool._shutdownCallback`: set `shutdown_requested`, close every busy and
free transport (their loss notifications arrive as later events), stop and
clear the factories; return no drain deferred (`false`) when the pool is idle
or `forceShutdown` is configured, otherwise create `shutdown_deferred` and
return it (`true`). -/
def shutdownCallback (s : PoolState) : PoolState × Bool :=
  let s1 := { s with shutdownRequested := true, factories := 0 }
  if isIdle s1 || s1.forceShutdown then (s1, false)
  else ({ s1 with shutdownDeferredSet := true }, true)

/-- `Pool.suggestMaxClients`. -/
def suggestMaxClients (s : PoolState) (maxClients : Nat) : PoolState :=
  { s with maxClients := maxClients }

/-- The pool-visible state of one `PooledClientFactory`: whether its
`deferred` (the deferred a request issued through `_newClientConnection`
waits on) has been given a result, and its `_protocolInstance`. -/
structure FactoryState where
  deferredFired : Bool
  protocolInstance : Option Nat
deriving DecidableEq

/-- `PooledClientFactory.clientConnectionFailed`: mark the protocol instance
busy when there is one, then notify the pool via `clientFailed` (which takes
the destination out of rotation), then fall through to
`ReconnectingClientFactory.clientConnectionFailed`, which schedules a retry.
Nothing here touches the factory's `deferred`. -/
def clientConnectionFailed (f : FactoryState) (s : PoolState)
    (connectorDest : Address) (now : Nat) : FactoryState × PoolState :=
  let s1 :=
    match f.protocolInstance with
    | some p => clientBusy s p
    | none => s
  (f, clientFailed s1 f.protocolInstance connectorDest now)

/-- One atomic callback delivered to the pool by the event loop. -/
inductive PoolEvent where
  | perform (cmd : PendingCmd) (chosen now : Nat)
  | busy (c : Nat)
  | free (c now chosen : Nat)
  | gone (c : Nat)
  | failed (client : Option Nat) (dest : Address) (now : Nat)
  | connected
  | shutdown
deriving DecidableEq

/-- The state transformer of one pool event. -/
def applyEvent (s : PoolState) : PoolEvent → PoolState
  | PoolEvent.perform cmd chosen now => (performRequestDispatch s cmd chosen now).1
  | PoolEvent.busy c => clientBusy s c
  | PoolEvent.free c now chosen => (clientFreeFull s c now chosen).state
  | PoolEvent.gone c => clientGone s c
  | PoolEvent.failed client dest now => clientFailed s client dest now
  | PoolEvent.connected => connectionSucceeded s
  | PoolEvent.shutdown => (shutdownCallback s).1

/-- Side condition making an event faithful to the source: a `set.pop()` can
only return a member of the set being popped. -/
def eventOK (s : PoolState) : PoolEvent → Bool
  | PoolEvent.perform _ chosen _ =>
    decide (chosen ∈ s.freeClients) || decide (s.freeClients = ∅)
  | PoolEvent.free c _ chosen =>
    decide (chosen ∈ (clientFreeSets s c).freeClients)
  | _ => true

/-- One step of the pool: some valid event fires. -/
def PoolStep (s t : PoolState) : Prop :=
  ∃ e, eventOK s e = true ∧ t = applyEvent s e

/-- The states reachable from `s` through the pool's operations. -/
def Reachable (s t : PoolState) : Prop :=
  Relation.ReflTransGen PoolStep s t

/-- Whether `key` currently has an unexpired out-of-rotation record:
present and not selectable (`time.time() > expiry` is false). -/
def excludedUnexpired (oor : List (String × Nat)) (now : Nat) (key : String) : Bool :=
  match oorLookup oor key with
  | some e => decide (now ≤ e)
  | none => false

/-- Iterate `k` successive `_nextServerAddress` state updates. -/
def selectIter (s : PoolState) (now : Nat) : Nat → PoolState
  | 0 => s
  | k + 1 => (nextServerAddress (selectIter s now k) now).2

/-- The address returned by the `(k+1)`-th successive selection. -/
def selectedAt (s : PoolState) (now k : Nat) : Address :=
  (nextServerAddress (selectIter s now k) now).1

/-- A concrete server address used by witnesses and counterexamples. -/
def addrA : Address := ⟨"IPv4", "a", 1⟩

/-- A second concrete server address. -/
def addrB : Address := ⟨"IPv4", "b", 2⟩

/-- A pool at capacity (`maxClients = 1`, one busy client, nothing free). -/
def c3State : PoolState :=
  { poolInit [addrA] 1 false with busyClients := {1} }

/-- A pool whose only endpoint is out of rotation until time 100. -/
def c7State : PoolState :=
  { poolInit [addrA] 5 false with
      serverOORRecords := [(reprForIPv4Address addrA, 100)] }

/-- A pool with a busy client and one queued command. -/
def c4State : PoolState :=
  { poolInit [addrA] 1 false with
      busyClients := {2}, commands := [⟨10, "get", [5], []⟩] }

end Txconnpool

namespace Txconnpool

/-! ### Projection lemmas -/

theorem clientBusy_busyClients (s : PoolState) (c : Nat) :
    (clientBusy s c).busyClients = insert c s.busyClients := rfl

theorem clientBusy_freeClients (s : PoolState) (c : Nat) :
    (clientBusy s c).freeClients
      = if c ∈ s.freeClients then s.freeClients.erase c else s.freeClients := rfl

theorem clientBusy_commands (s : PoolState) (c : Nat) :
    (clientBusy s c).commands = s.commands := rfl

theorem clientBusy_pendingConnects (s : PoolState) (c : Nat) :
    (clientBusy s c).pendingConnects = s.pendingConnects := rfl

theorem clientFreeSets_freeClients (s : PoolState) (c : Nat) :
    (clientFreeSets s c).freeClients = insert c s.freeClients := rfl

theorem clientFreeSets_busyClients (s : PoolState) (c : Nat) :
    (clientFreeSets s c).busyClients
      = if c ∈ s.busyClients then s.busyClients.erase c else s.busyClients := rfl

theorem clientFreeSets_commands (s : PoolState) (c : Nat) :
    (clientFreeSets s c).commands = s.commands := rfl

theorem clientFreeSets_pendingConnects (s : PoolState) (c : Nat) :
    (clientFreeSets s c).pendingConnects = s.pendingConnects := rfl

theorem clientGone_serverOORRecords (s : PoolState) (c : Nat) :
    (clientGone s c).serverOORRecords = s.serverOORRecords := by
  unfold clientGone; split_ifs <;> rfl

theorem clientGone_commands (s : PoolState) (c : Nat) :
    (clientGone s c).commands = s.commands := by
  unfold clientGone; split_ifs <;> rfl

theorem clientGone_pendingConnects (s : PoolState) (c : Nat) :
    (clientGone s c).pendingConnects = s.pendingConnects := by
  unfold clientGone; split_ifs <;> rfl

theorem nextServerAddress_freeClients (s : PoolState) (now : Nat) :
    (nextServerAddress s now).2.freeClients = s.freeClients := rfl

theorem nextServerAddress_busyClients (s : PoolState) (now : Nat) :
    (nextServerAddress s now).2.busyClients = s.busyClients := rfl

theorem nextServerAddress_pendingConnects (s : PoolState) (now : Nat) :
    (nextServerAddress s now).2.pendingConnects = s.pendingConnects := rfl

theorem nextServerAddress_commands (s : PoolState) (now : Nat) :
    (nextServerAddress s now).2.commands = s.commands := rfl

theorem oorLookup_insert (m : List (String × Nat)) (k : String) (v : Nat) :
    oorLookup (oorInsert m k v) k = some v := by
  simp [oorInsert, oorLookup]

/-! ### C1 -/

/-- C1 (code bug): executing a request on a client handle.  The claim says
that on an unknown operation the deferred fails with the unknown-operation
error and the handle is marked free afterwards, and that an operation
failure likewise frees the handle.  In the source,
`_freeClientAfterRequest` is attached with `addCallback`, which a `Failure`
flows past, so on both failure paths `clientFree` never runs and the client
stays in the busy set; only the propagation of the outcome and the
success-path freeing hold.  This theorem evaluates the embedded code at the
failing inputs: client `7` with an absent method, with a failing method, and
(for contrast) with a succeeding method. -/
theorem C1_failed_request_leaves_handle_busy :
    ((performRequestOnClient (poolInit [addrA] 5 false) 7 none 0 7).2
        = DeferredResult.err RequestError.NoSuchCommand
      ∧ 7 ∈ (performRequestOnClient (poolInit [addrA] 5 false) 7 none 0 7).1.busyClients
      ∧ 7 ∉ (performRequestOnClient (poolInit [addrA] 5 false) 7 none 0 7).1.freeClients)
    ∧ ((performRequestOnClient (poolInit [addrA] 5 false) 7
          (some (DeferredResult.err (RequestError.operationFailure 3))) 0 7).2
        = DeferredResult.err (RequestError.operationFailure 3)
      ∧ 7 ∈ (performRequestOnClient (poolInit [addrA] 5 false) 7
          (some (DeferredResult.err (RequestError.operationFailure 3))) 0 7).1.busyClients
      ∧ 7 ∉ (performRequestOnClient (poolInit [addrA] 5 false) 7
          (some (DeferredResult.err (RequestError.operationFailure 3))) 0 7).1.freeClients)
    ∧ (7 ∈ (performRequestOnClient (poolInit [addrA] 5 false) 7
          (some (DeferredResult.ok 0)) 0 7).1.freeClients
      ∧ 7 ∉ (performRequestOnClient (poolInit [addrA] 5 false) 7
          (some (DeferredResult.ok 0)) 0 7).1.busyClients) := by
  decide

/-! ### C2 -/

/-- C2 counterexample: a connection attempt fails (`clientConnectionFailed`
on a factory whose deferred is still pending).  After the whole failure
notification has been processed the factory's deferred — the one the request
issued through `_newClientConnection` waits on — has still not been given a
result: the claim that the waiting request's ResultHandle fails is false.
(Nothing on the failure path fires it; only `buildProtocol` on a later
successful attempt leads to it being called back.) -/
theorem C2_counterexample_result_handle_not_failed :
    (clientConnectionFailed ⟨false, none⟩ (poolInit [addrA] 5 false) addrA 42).1.deferredFired
      = false
    ∧ oorLookup
        ((clientConnectionFailed ⟨false, none⟩ (poolInit [addrA] 5 false) addrA 42).2.serverOORRecords)
        (reprForIPv4Address addrA) = some 52 := by
  decide

/-- C2 as amended: when a connection attempt fails, the attempted endpoint is
excluded from rotation for the fixed 10-second backoff window, but the
ResultHandle waiting on that attempt is not failed — the failure notification
leaves the factory state (and with it the pending deferred) untouched, and
the handle resolves only if a later retry delivers a client. -/
theorem C2_amended_endpoint_excluded_deferred_untouched (f : FactoryState)
    (s : PoolState) (dest : Address) (now : Nat) :
    (clientConnectionFailed f s dest now).1 = f
    ∧ oorLookup ((clientConnectionFailed f s dest now).2.serverOORRecords)
        (reprForIPv4Address dest) = some (now + 10) := by
  refine ⟨rfl, ?_⟩
  unfold clientConnectionFailed clientFailed
  cases f.protocolInstance <;>
    simp [clientGone_serverOORRecords, removeServerFromRotation, oorLookup_insert]

/-! ### C3 -/

/-- C3: when the free set is empty and `|Busy| + pendingConnects` has reached
`maxClients`, `performRequest` appends the command (operation, arguments and
the caller's new deferred) to the end of the pending queue and returns that
deferred; nothing is executed and no connection is opened — the rest of the
state is unchanged. -/
theorem C3_request_queued_at_capacity (s : PoolState) (cmd : PendingCmd)
    (chosen now : Nat) (hfree : s.freeClients = ∅)
    (hcap : s.maxClients ≤ s.busyClients.card + s.pendingConnects) :
    performRequestDispatch s cmd chosen now
      = ({ s with commands := s.commands ++ [cmd] }, DispatchAction.queued) := by
  unfold performRequestDispatch
  rw [hfree]
  simp [hcap]

/-- Witness for C3 at a concrete pool: `maxClients = 1`, one busy client,
empty free set. -/
theorem C3_witness :
    performRequestDispatch c3State ⟨10, "get", [5], []⟩ 0 0
      = ({ c3State with commands := c3State.commands ++ [⟨10, "get", [5], []⟩] },
         DispatchAction.queued) :=
  C3_request_queued_at_capacity c3State ⟨10, "get", [5], []⟩ 0 0 rfl (by decide)

/-! ### C9 -/

/-- `clientGone` is idempotent on any state in which the handle is not
simultaneously free and busy. -/
theorem clientGone_idem_of_not_both (s : PoolState) (c : Nat)
    (h : ¬(c ∈ s.freeClients ∧ c ∈ s.busyClients)) :
    clientGone (clientGone s c) c = clientGone s c
    ∧ (c ∉ s.freeClients → c ∉ s.busyClients → clientGone s c = s) := by
  constructor
  · by_cases hb : c ∈ s.busyClients
    · have hf : c ∉ s.freeClients := fun hf => h ⟨hf, hb⟩
      simp [clientGone, hb, hf]
    · by_cases hf : c ∈ s.freeClients
      · simp [clientGone, hb, hf]
      · simp [clientGone, hb, hf]
  · intro hf hb
    simp [clientGone, hb, hf]


/-! ### C10 -/

/-- `performRequestDispatch` never lowers `_pendingConnects`. -/
theorem dispatch_pendingConnects_ge (s : PoolState) (cmd : PendingCmd)
    (chosen now : Nat) :
    s.pendingConnects ≤ (performRequestDispatch s cmd chosen now).1.pendingConnects := by
  unfold performRequestDispatch
  split_ifs <;> simp [clientBusy_pendingConnects, nextServerAddress_pendingConnects]

/-- The state component of `clientFreeFull`, unfolded. -/
theorem clientFreeFull_state_eq (s : PoolState) (c now chosen : Nat) :
    (clientFreeFull s c now chosen).state =
      (queueDrain
        (if (clientFreeSets s c).shutdownDeferredSet && isIdle (clientFreeSets s c)
         then { clientFreeSets s c with shutdownDeferredFired := true }
         else clientFreeSets s c) now chosen).1 := rfl

/-- The drained component of `clientFreeFull`, unfolded. -/
theorem clientFreeFull_drained_eq (s : PoolState) (c now chosen : Nat) :
    (clientFreeFull s c now chosen).drained =
      (queueDrain
        (if (clientFreeSets s c).shutdownDeferredSet && isIdle (clientFreeSets s c)
         then { clientFreeSets s c with shutdownDeferredFired := true }
         else clientFreeSets s c) now chosen).2 := rfl

/-- The drain-fired component of `clientFreeFull`, unfolded: the idle check
reads the state right after the free-set mutation, before the queue drain. -/
theorem clientFreeFull_drainFired_eq (s : PoolState) (c now chosen : Nat) :
    (clientFreeFull s c now chosen).drainFired =
      ((clientFreeSets s c).shutdownDeferredSet && isIdle (clientFreeSets s c)) := rfl

/-- `queueDrain` on an empty queue does nothing. -/
theorem queueDrain_nil (s : PoolState) (now chosen : Nat) (h : s.commands = []) :
    queueDrain s now chosen = (s, none) := by
  simp only [queueDrain, h]

/-- `queueDrain` on a non-empty queue pops the head and dispatches it. -/
theorem queueDrain_cons (s : PoolState) (now chosen : Nat) (cmd : PendingCmd)
    (rest : List PendingCmd) (h : s.commands = cmd :: rest) :
    queueDrain s now chosen =
      ((performRequestDispatch { s with commands := rest } cmd chosen now).1,
       some (cmd, (performRequestDispatch { s with commands := rest } cmd chosen now).2)) := by
  simp only [queueDrain, h]

/-- `queueDrain` never lowers `_pendingConnects`. -/
theorem queueDrain_pendingConnects_ge (s : PoolState) (now chosen : Nat) :
    s.pendingConnects ≤ (queueDrain s now chosen).1.pendingConnects := by
  cases h : s.commands with
  | nil => rw [queueDrain_nil s now chosen h]
  | cons cmd rest =>
    rw [queueDrain_cons s now chosen cmd rest h]
    exact dispatch_pendingConnects_ge { s with commands := rest } cmd chosen now

/-- `clientFreeFull` never lowers `_pendingConnects`. -/
theorem clientFreeFull_pendingConnects_ge (s : PoolState) (c now chosen : Nat) :
    s.pendingConnects ≤ (clientFreeFull s c now chosen).state.pendingConnects := by
  rw [clientFreeFull_state_eq]
  refine le_trans ?_ (queueDrain_pendingConnects_ge _ now chosen)
  split_ifs <;> exact le_of_eq rfl

/-- C10: the `_pendingConnects` counter is decremented only by the
`_connected` callback, which runs only when a connection attempt succeeds and
delivers a client handle.  None of the failure-path notifications
(`clientConnectionFailed`, `clientFailed`, `clientGone`) decrements it, and no
pool event other than the success delivery ever lowers it, so a failed
attempt leaves it one higher until (at most) a client is eventually
delivered. -/
theorem C10_pendingConnects_only_decremented_on_success :
    (∀ (f : FactoryState) (s : PoolState) (dest : Address) (now : Nat),
        ((clientConnectionFailed f s dest now).2).pendingConnects = s.pendingConnects)
    ∧ (∀ (s : PoolState) (client : Option Nat) (dest : Address) (now : Nat),
        (clientFailed s client dest now).pendingConnects = s.pendingConnects)
    ∧ (∀ (s : PoolState) (c : Nat),
        (clientGone s c).pendingConnects = s.pendingConnects)
    ∧ (∀ s : PoolState,
        (connectionSucceeded s).pendingConnects = s.pendingConnects - 1)
    ∧ (∀ (s : PoolState) (e : PoolEvent),
        s.pendingConnects ≤ (applyEvent s e).pendingConnects
          ∨ e = PoolEvent.connected) := by
  have hfail : ∀ (s : PoolState) (client : Option Nat) (dest : Address) (now : Nat),
      (clientFailed s client dest now).pendingConnects = s.pendingConnects := by
    intro s client dest now
    unfold clientFailed
    cases client <;> simp [clientGone_pendingConnects, removeServerFromRotation]
  refine ⟨?_, hfail, ?_, ?_, ?_⟩
  · intro f s dest now
    unfold clientConnectionFailed
    cases f.protocolInstance <;> simp [hfail, clientBusy_pendingConnects]
  · exact fun s c => clientGone_pendingConnects s c
  · intro s; rfl
  · intro s e
    cases e with
    | perform cmd chosen now => exact Or.inl (dispatch_pendingConnects_ge s cmd chosen now)
    | busy c => exact Or.inl (le_of_eq (clientBusy_pendingConnects s c).symm)
    | free c now chosen => exact Or.inl (clientFreeFull_pendingConnects_ge s c now chosen)
    | gone c => exact Or.inl (le_of_eq (clientGone_pendingConnects s c).symm)
    | failed client dest now => exact Or.inl (le_of_eq (hfail s client dest now).symm)
    | connected => exact Or.inr rfl
    | shutdown =>
      refine Or.inl ?_
      show s.pendingConnects ≤ (shutdownCallback s).1.pendingConnects
      simp only [shutdownCallback]
      split_ifs <;> exact le_of_eq rfl

/-! ### C8 -/

/-- `_isIdle` only reads the busy set and the command queue. -/
theorem isIdle_shutdownFlags (s : PoolState) :
    isIdle { s with shutdownRequested := true, factories := 0 } = isIdle s := rfl

/-- C8: the shutdown trigger returns no drain deferred exactly when the pool
is idle (no busy clients, empty queue) or `forceShutdown` was configured;
otherwise `shutdown_deferred` is created; and in every `clientFree`
transition the drain deferred is called back exactly when it exists and the
pool is idle in the state reached right after the free-set mutation — i.e.
the idle check happens before the queue-drain check of that transition. -/
theorem C8_shutdown_drain_semantics (s : PoolState) :
    ((shutdownCallback s).2 = !(isIdle s || s.forceShutdown))
    ∧ ((shutdownCallback s).1.shutdownDeferredSet
        = (s.shutdownDeferredSet || !(isIdle s || s.forceShutdown)))
    ∧ ∀ c now chosen : Nat,
        (clientFreeFull s c now chosen).drainFired
          = ((clientFreeSets s c).shutdownDeferredSet && isIdle (clientFreeSets s c)) := by
  refine ⟨?_, ?_, fun c now chosen => clientFreeFull_drainFired_eq s c now chosen⟩
  · simp only [shutdownCallback, isIdle_shutdownFlags]
    split_ifs with h
    · rw [h]; rfl
    · rw [Bool.not_eq_true] at h; rw [h]; rfl
  · simp only [shutdownCallback, isIdle_shutdownFlags]
    split_ifs with h
    · rw [h]; simp
    · rw [Bool.not_eq_true] at h; rw [h]; simp

/-! ### C4 -/

/-- When a handle turns free while the queue is non-empty, exactly the head
of the queue is popped and dispatched in the execute-immediately branch of
`performRequest` (the free set is non-empty, the freed handle having just
been added), and the remaining queue is exactly the tail. -/
theorem clientFreeFull_cons (s : PoolState) (c now chosen : Nat) (cmd : PendingCmd)
    (rest : List PendingCmd) (hcmd : s.commands = cmd :: rest) :
    (clientFreeFull s c now chosen).drained = some (cmd, DispatchAction.executed chosen)
    ∧ (clientFreeFull s c now chosen).state.commands = rest := by
  set s2 := (if (clientFreeSets s c).shutdownDeferredSet && isIdle (clientFreeSets s c)
             then { clientFreeSets s c with shutdownDeferredFired := true }
             else clientFreeSets s c) with hs2
  have h2cmd : s2.commands = cmd :: rest := by
    rw [hs2]; split_ifs <;> simpa [clientFreeSets_commands] using hcmd
  have hcpos : 0 < (clientFreeSets s c).freeClients.card := by
    rw [clientFreeSets_freeClients]
    exact Finset.card_pos.mpr ⟨c, Finset.mem_insert_self c s.freeClients⟩
  have hcond : 0 < ({ s2 with commands := rest } : PoolState).freeClients.card := by
    show 0 < s2.freeClients.card
    rw [hs2]; split_ifs <;> simpa using hcpos
  rw [clientFreeFull_drained_eq, clientFreeFull_state_eq, ← hs2,
      queueDrain_cons s2 now chosen cmd rest h2cmd]
  constructor
  · unfold performRequestDispatch
    rw [if_pos hcond]
  · unfold performRequestDispatch
    rw [if_pos hcond]
    rfl

/-- `clientFree` on an empty queue leaves the queue empty. -/
theorem clientFreeFull_nil_commands (s : PoolState) (c now chosen : Nat)
    (h : s.commands = []) :
    (clientFreeFull s c now chosen).state.commands = [] := by
  rw [clientFreeFull_state_eq]
  have h2 : (if (clientFreeSets s c).shutdownDeferredSet && isIdle (clientFreeSets s c)
             then { clientFreeSets s c with shutdownDeferredFired := true }
             else clientFreeSets s c).commands = [] := by
    split_ifs <;> simpa [clientFreeSets_commands] using h
  rw [queueDrain_nil _ now chosen h2]
  exact h2

/-- `performRequest` either leaves the queue unchanged or appends its own
command at the end. -/
theorem dispatch_commands (s : PoolState) (cmd : PendingCmd) (chosen now : Nat) :
    (performRequestDispatch s cmd chosen now).1.commands = s.commands
    ∨ (performRequestDispatch s cmd chosen now).1.commands = s.commands ++ [cmd] := by
  unfold performRequestDispatch
  split_ifs <;> simp [clientBusy_commands, nextServerAddress_commands]

/-- `clientFailed` does not touch the queue. -/
theorem clientFailed_commands (s : PoolState) (client : Option Nat) (dest : Address)
    (now : Nat) : (clientFailed s client dest now).commands = s.commands := by
  unfold clientFailed
  cases client <;> simp [clientGone_commands, removeServerFromRotation]

/-- C4: when a handle transitions to Free while the pending queue is
non-empty, exactly the oldest entry (the head) is removed and re-dispatched
through `performRequest`, landing in the execute branch on a free client,
with the queue becoming exactly the tail (the popped command carries the
deferred originally issued to the queued caller, into which the source
chains the dispatch outcome); and every pool event either leaves the queue
unchanged, appends one command at the end, or removes exactly the head — so
queued requests are serviced strictly in arrival order. -/
theorem C4_queue_drained_fifo :
    (∀ (s : PoolState) (c now chosen : Nat) (cmd : PendingCmd) (rest : List PendingCmd),
        s.commands = cmd :: rest →
        (clientFreeFull s c now chosen).drained
            = some (cmd, DispatchAction.executed chosen)
        ∧ (clientFreeFull s c now chosen).state.commands = rest)
    ∧ (∀ (s : PoolState) (e : PoolEvent),
        (applyEvent s e).commands = s.commands
        ∨ (∃ cmd, (applyEvent s e).commands = s.commands ++ [cmd])
        ∨ (∃ cmd, s.commands = cmd :: (applyEvent s e).commands)) := by
  refine ⟨fun s c now chosen cmd rest hcmd =>
    clientFreeFull_cons s c now chosen cmd rest hcmd, ?_⟩
  intro s e
  cases e with
  | perform cmd chosen now =>
    rcases dispatch_commands s cmd chosen now with h | h
    · exact Or.inl h
    · exact Or.inr (Or.inl ⟨cmd, h⟩)
  | busy c => exact Or.inl (clientBusy_commands s c)
  | free c now chosen =>
    cases hcmd : s.commands with
    | nil =>
      refine Or.inl ?_
      show (clientFreeFull s c now chosen).state.commands = []
      exact clientFreeFull_nil_commands s c now chosen hcmd
    | cons cmd rest =>
      refine Or.inr (Or.inr ⟨cmd, ?_⟩)
      show cmd :: rest = cmd :: (clientFreeFull s c now chosen).state.commands
      rw [(clientFreeFull_cons s c now chosen cmd rest hcmd).2]
  | gone c => exact Or.inl (clientGone_commands s c)
  | failed client dest now => exact Or.inl (clientFailed_commands s client dest now)
  | connected => exact Or.inl rfl
  | shutdown =>
    refine Or.inl ?_
    show (shutdownCallback s).1.commands = s.commands
    simp only [shutdownCallback]
    split_ifs <;> rfl

/-- Witness for C4 at a concrete pool with one busy client and one queued
command. -/
theorem C4_witness :
    (clientFreeFull c4State 2 0 2).drained
        = some (⟨10, "get", [5], []⟩, DispatchAction.executed 2)
    ∧ (clientFreeFull c4State 2 0 2).state.commands = [] :=
  C4_queue_drained_fifo.1 c4State 2 0 2 ⟨10, "get", [5], []⟩ [] rfl

/-! ### C5 -/

/-- `clientBusy` preserves disjointness of the free and busy sets. -/
theorem disj_clientBusy (s : PoolState) (c : Nat)
    (h : s.freeClients ∩ s.busyClients = ∅) :
    (clientBusy s c).freeClients ∩ (clientBusy s c).busyClients = ∅ := by
  rw [Finset.eq_empty_iff_forall_not_mem] at h ⊢
  intro x hx
  rw [Finset.mem_inter, clientBusy_freeClients, clientBusy_busyClients,
      Finset.mem_insert] at hx
  obtain ⟨hxf, hxc | hxb⟩ := hx
  · subst hxc
    by_cases hc : x ∈ s.freeClients
    · rw [if_pos hc] at hxf
      exact absurd hxf (Finset.not_mem_erase x _)
    · rw [if_neg hc] at hxf
      exact hc hxf
  · have hxfree : x ∈ s.freeClients := by
      by_cases hc : c ∈ s.freeClients
      · rw [if_pos hc] at hxf
        exact Finset.mem_of_mem_erase hxf
      · rwa [if_neg hc] at hxf
    exact h x (Finset.mem_inter.mpr ⟨hxfree, hxb⟩)

/-- The free-set mutation of `clientFree` preserves disjointness. -/
theorem disj_clientFreeSets (s : PoolState) (c : Nat)
    (h : s.freeClients ∩ s.busyClients = ∅) :
    (clientFreeSets s c).freeClients ∩ (clientFreeSets s c).busyClients = ∅ := by
  rw [Finset.eq_empty_iff_forall_not_mem] at h ⊢
  intro x hx
  rw [Finset.mem_inter, clientFreeSets_freeClients, clientFreeSets_busyClients,
      Finset.mem_insert] at hx
  obtain ⟨hxc | hxf, hxb⟩ := hx
  · subst hxc
    by_cases hc : x ∈ s.busyClients
    · rw [if_pos hc] at hxb
      exact absurd hxb (Finset.not_mem_erase x _)
    · rw [if_neg hc] at hxb
      exact hc hxb
  · have hxbusy : x ∈ s.busyClients := by
      by_cases hc : c ∈ s.busyClients
      · rw [if_pos hc] at hxb
        exact Finset.mem_of_mem_erase hxb
      · rwa [if_neg hc] at hxb
    exact h x (Finset.mem_inter.mpr ⟨hxf, hxbusy⟩)

/-- `clientGone` preserves disjointness. -/
theorem disj_clientGone (s : PoolState) (c : Nat)
    (h : s.freeClients ∩ s.busyClients = ∅) :
    (clientGone s c).freeClients ∩ (clientGone s c).busyClients = ∅ := by
  unfold clientGone
  split_ifs with h1 h2
  · rw [Finset.eq_empty_iff_forall_not_mem] at h ⊢
    intro x hx
    rw [Finset.mem_inter] at hx
    exact h x (Finset.mem_inter.mpr ⟨hx.1, Finset.mem_of_mem_erase hx.2⟩)
  · rw [Finset.eq_empty_iff_forall_not_mem] at h ⊢
    intro x hx
    rw [Finset.mem_inter] at hx
    exact h x (Finset.mem_inter.mpr ⟨Finset.mem_of_mem_erase hx.1, hx.2⟩)
  · exact h

/-- `performRequest` preserves disjointness. -/
theorem disj_dispatch (s : PoolState) (cmd : PendingCmd) (chosen now : Nat)
    (h : s.freeClients ∩ s.busyClients = ∅) :
    (performRequestDispatch s cmd chosen now).1.freeClients
      ∩ (performRequestDispatch s cmd chosen now).1.busyClients = ∅ := by
  unfold performRequestDispatch
  split_ifs with h1 h2
  · apply disj_clientBusy
    show s.freeClients.erase chosen ∩ s.busyClients = ∅
    rw [Finset.eq_empty_iff_forall_not_mem] at h ⊢
    intro x hx
    rw [Finset.mem_inter] at hx
    exact h x (Finset.mem_inter.mpr ⟨Finset.mem_of_mem_erase hx.1, hx.2⟩)
  · exact h
  · rw [nextServerAddress_freeClients, nextServerAddress_busyClients]
    exact h

/-- `queueDrain` preserves disjointness. -/
theorem disj_queueDrain (s : PoolState) (now chosen : Nat)
    (h : s.freeClients ∩ s.busyClients = ∅) :
    (queueDrain s now chosen).1.freeClients
      ∩ (queueDrain s now chosen).1.busyClients = ∅ := by
  cases hc : s.commands with
  | nil => rw [queueDrain_nil s now chosen hc]; exact h
  | cons cmd rest =>
    rw [queueDrain_cons s now chosen cmd rest hc]
    exact disj_dispatch { s with commands := rest } cmd chosen now h

/-- `clientFree` preserves disjointness. -/
theorem disj_clientFreeFull (s : PoolState) (c now chosen : Nat)
    (h : s.freeClients ∩ s.busyClients = ∅) :
    (clientFreeFull s c now chosen).state.freeClients
      ∩ (clientFreeFull s c now chosen).state.busyClients = ∅ := by
  rw [clientFreeFull_state_eq]
  apply disj_queueDrain
  split_ifs
  · exact disj_clientFreeSets s c h
  · exact disj_clientFreeSets s c h

/-- Every pool event preserves disjointness of the free and busy sets. -/
theorem disj_applyEvent (s : PoolState) (e : PoolEvent)
    (h : s.freeClients ∩ s.busyClients = ∅) :
    (applyEvent s e).freeClients ∩ (applyEvent s e).busyClients = ∅ := by
  cases e with
  | perform cmd chosen now => exact disj_dispatch s cmd chosen now h
  | busy c => exact disj_clientBusy s c h
  | free c now chosen => exact disj_clientFreeFull s c now chosen h
  | gone c =>
    show (clientGone s c).freeClients ∩ (clientGone s c).busyClients = ∅
    exact disj_clientGone s c h
  | failed client dest now =>
    show (clientFailed s client dest now).freeClients
      ∩ (clientFailed s client dest now).busyClients = ∅
    unfold clientFailed
    cases client with
    | some p => exact disj_clientGone _ p h
    | none => exact h
  | connected => exact h
  | shutdown =>
    show (shutdownCallback s).1.freeClients ∩ (shutdownCallback s).1.busyClients = ∅
    simp only [shutdownCallback]
    split_ifs <;> exact h

/-- Every state reachable from a freshly constructed pool has disjoint free
and busy sets. -/
theorem reachable_free_busy_disjoint (addrs : List Address) (maxClients : Nat)
    (force : Bool) (s : PoolState)
    (h : Reachable (poolInit addrs maxClients force) s) :
    s.freeClients ∩ s.busyClients = ∅ := by
  induction h with
  | refl => rfl
  | tail _ hstep ih =>
    obtain ⟨e, -, rfl⟩ := hstep
    exact disj_applyEvent _ e ih

/-- C5: in every pool state reachable from a freshly constructed pool through
the pool's operations, no client handle is simultaneously in the free set and
in the busy set. -/
theorem C5_free_busy_never_overlap (addrs : List Address) (maxClients : Nat)
    (force : Bool) (s : PoolState)
    (h : Reachable (poolInit addrs maxClients force) s) :
    s.freeClients ∩ s.busyClients = ∅ :=
  reachable_free_busy_disjoint addrs maxClients force s h

/-- Witness for C5: the state after one `clientBusy` notification on a fresh
pool is reachable and has disjoint sets. -/
theorem C5_witness :
    (applyEvent (poolInit [addrA] 5 false) (PoolEvent.busy 3)).freeClients
      ∩ (applyEvent (poolInit [addrA] 5 false) (PoolEvent.busy 3)).busyClients = ∅ :=
  C5_free_busy_never_overlap [addrA] 5 false _
    (Relation.ReflTransGen.single ⟨PoolEvent.busy 3, rfl, rfl⟩)

/-! ### C9 -/

/-- C9: `clientGone` is idempotent — in every pool state, calling it twice
on the same handle leaves the same state as calling it once, and calling it
on a handle present in neither the free nor the busy set changes nothing. -/
theorem C9_clientGone_idempotent (addrs : List Address) (maxClients : Nat)
    (force : Bool) (s : PoolState)
    (h : Reachable (poolInit addrs maxClients force) s) (c : Nat) :
    clientGone (clientGone s c) c = clientGone s c
    ∧ (c ∉ s.freeClients → c ∉ s.busyClients → clientGone s c = s) := by
  have hdisj := reachable_free_busy_disjoint addrs maxClients force s h
  apply clientGone_idem_of_not_both
  rintro ⟨hf, hb⟩
  exact Finset.eq_empty_iff_forall_not_mem.mp hdisj c (Finset.mem_inter.mpr ⟨hf, hb⟩)

/-- Witness for C9 at a reachable pool state with one busy client. -/
theorem C9_witness :
    clientGone (clientGone (applyEvent (poolInit [addrA] 5 false) (PoolEvent.busy 3)) 3) 3
        = clientGone (applyEvent (poolInit [addrA] 5 false) (PoolEvent.busy 3)) 3
    ∧ (3 ∉ (applyEvent (poolInit [addrA] 5 false) (PoolEvent.busy 3)).freeClients →
        3 ∉ (applyEvent (poolInit [addrA] 5 false) (PoolEvent.busy 3)).busyClients →
        clientGone (applyEvent (poolInit [addrA] 5 false) (PoolEvent.busy 3)) 3
          = applyEvent (poolInit [addrA] 5 false) (PoolEvent.busy 3)) :=
  C9_clientGone_idempotent [addrA] 5 false _
    (Relation.ReflTransGen.single ⟨PoolEvent.busy 3, rfl, rfl⟩) 3

/-! ### C6 -/

/-- One scan step on an empty out-of-rotation table immediately returns the
endpoint at the current position. -/
theorem nextServerScan_oorEmpty (addrs : List Address) (now candidate i fuel : Nat)
    (lastIdx : Int) (hfuel : 0 < fuel) :
    nextServerScan addrs now candidate i fuel [] lastIdx =
      (addrs.getD ((candidate + i) % addrs.length) default,
       (((candidate + i) % addrs.length : Nat) : Int), []) := by
  cases fuel with
  | zero => omega
  | succ n => simp [nextServerScan, oorLookup]

/-- With no exclusions, `_nextServerAddress` returns the endpoint one
position after the cursor and advances the cursor there. -/
theorem nextServerAddress_oorEmpty (s : PoolState) (now : Nat)
    (hoor : s.serverOORRecords = []) (hN : 0 < s.serverAddresses.length) :
    nextServerAddress s now =
      (s.serverAddresses.getD
          ((s.nextServerIndex + 1) % (s.serverAddresses.length : Int)).toNat default,
       { s with nextServerIndex :=
           (s.nextServerIndex + 1) % (s.serverAddresses.length : Int) }) := by
  have hNpos : (0 : Int) < (s.serverAddresses.length : Int) := by exact_mod_cast hN
  have hnonneg : 0 ≤ (s.nextServerIndex + 1) % (s.serverAddresses.length : Int) :=
    Int.emod_nonneg _ (ne_of_gt hNpos)
  have hlt : (s.nextServerIndex + 1) % (s.serverAddresses.length : Int)
      < (s.serverAddresses.length : Int) := Int.emod_lt_of_pos _ hNpos
  have hcand : ((s.nextServerIndex + 1) % (s.serverAddresses.length : Int)).toNat
      < s.serverAddresses.length := by omega
  simp only [nextServerAddress, hoor]
  rw [nextServerScan_oorEmpty s.serverAddresses now _ 0 s.serverAddresses.length
      s.nextServerIndex hN]
  have h0 : (((s.nextServerIndex + 1) % (s.serverAddresses.length : Int)).toNat + 0)
      % s.serverAddresses.length
      = ((s.nextServerIndex + 1) % (s.serverAddresses.length : Int)).toNat := by
    rw [Nat.add_zero]
    exact Nat.mod_eq_of_lt hcand
  rw [h0, Int.toNat_of_nonneg hnonneg, ← hoor]

/-- After `k + 1` successive selections with no exclusions, the cursor sits
at `(start + 1 + k) mod N`, the exclusion table is still empty and the
server list unchanged. -/
theorem selectIter_spec (s : PoolState) (now : Nat)
    (hoor : s.serverOORRecords = []) (hN : 0 < s.serverAddresses.length) :
    ∀ k : Nat,
      (selectIter s now (k + 1)).nextServerIndex
          = (s.nextServerIndex + 1 + k) % (s.serverAddresses.length : Int)
      ∧ (selectIter s now (k + 1)).serverOORRecords = []
      ∧ (selectIter s now (k + 1)).serverAddresses = s.serverAddresses := by
  intro k
  induction k with
  | zero =>
    have h := nextServerAddress_oorEmpty s now hoor hN
    refine ⟨?_, ?_, ?_⟩
    · show (nextServerAddress s now).2.nextServerIndex = _
      rw [h]
      norm_num
    · show (nextServerAddress s now).2.serverOORRecords = []
      rw [h]
      exact hoor
    · show (nextServerAddress s now).2.serverAddresses = s.serverAddresses
      rw [h]
  | succ k ih =>
    obtain ⟨hidx, hoor2, haddr⟩ := ih
    have hN2 : 0 < (selectIter s now (k + 1)).serverAddresses.length := by
      rw [haddr]; exact hN
    have h := nextServerAddress_oorEmpty (selectIter s now (k + 1)) now hoor2 hN2
    refine ⟨?_, ?_, ?_⟩
    · show (nextServerAddress (selectIter s now (k + 1)) now).2.nextServerIndex = _
      rw [h]
      show ((selectIter s now (k + 1)).nextServerIndex + 1)
          % ((selectIter s now (k + 1)).serverAddresses.length : Int) = _
      rw [hidx, haddr, Int.emod_add_emod]
      congr 1
      push_cast
      ring
    · show (nextServerAddress (selectIter s now (k + 1)) now).2.serverOORRecords = []
      rw [h]
      exact hoor2
    · show (nextServerAddress (selectIter s now (k + 1)) now).2.serverAddresses
          = s.serverAddresses
      rw [h]
      exact haddr

/-- The `(k+1)`-th selection with no exclusions returns the endpoint at
position `(start + 1 + k) mod N` of the server list. -/
theorem selectedAt_spec (s : PoolState) (now : Nat)
    (hoor : s.serverOORRecords = []) (hN : 0 < s.serverAddresses.length) :
    ∀ k : Nat,
      selectedAt s now k = s.serverAddresses.getD
        (((s.nextServerIndex + 1 + k) % (s.serverAddresses.length : Int)).toNat) default := by
  intro k
  cases k with
  | zero =>
    show (nextServerAddress s now).1 = _
    rw [nextServerAddress_oorEmpty s now hoor hN]
    norm_num
  | succ k =>
    obtain ⟨hidx, hoor2, haddr⟩ := selectIter_spec s now hoor hN k
    have hN2 : 0 < (selectIter s now (k + 1)).serverAddresses.length := by
      rw [haddr]; exact hN
    show (nextServerAddress (selectIter s now (k + 1)) now).1 = _
    rw [nextServerAddress_oorEmpty (selectIter s now (k + 1)) now hoor2 hN2]
    rw [haddr, hidx]
    rw [Int.emod_add_emod]
    push_cast
    ring_nf

/-- C6: with no endpoint excluded, the `(k+1)`-th of successive selections
returns the endpoint at list position `(start + 1 + k) mod N` and leaves the
cursor there (the cursor advances circularly by one per call, starting one
past the previous position); and positions for `k = 0, …, N-1` are pairwise
distinct, so `N` successive selections visit each of the `N` endpoints
exactly once, in list order. -/
theorem C6_round_robin_cycle (s : PoolState) (now : Nat)
    (hoor : s.serverOORRecords = []) (hN : 0 < s.serverAddresses.length) :
    (∀ k : Nat,
        selectedAt s now k
          = s.serverAddresses.getD
              (((s.nextServerIndex + 1 + k) % (s.serverAddresses.length : Int)).toNat) default
        ∧ (selectIter s now (k + 1)).nextServerIndex
            = (s.nextServerIndex + 1 + k) % (s.serverAddresses.length : Int))
    ∧ (∀ k₁ k₂ : Nat, k₁ < s.serverAddresses.length → k₂ < s.serverAddresses.length →
        (s.nextServerIndex + 1 + k₁) % (s.serverAddresses.length : Int)
          = (s.nextServerIndex + 1 + k₂) % (s.serverAddresses.length : Int) → k₁ = k₂) := by
  refine ⟨fun k => ⟨selectedAt_spec s now hoor hN k, (selectIter_spec s now hoor hN k).1⟩, ?_⟩
  intro k₁ k₂ h1 h2 heq
  have hNpos : (0 : Int) < (s.serverAddresses.length : Int) := by exact_mod_cast hN
  have hd : ((k₁ : Int) - k₂) % (s.serverAddresses.length : Int) = 0 := by
    have harith : s.nextServerIndex + 1 + (k₁ : Int) - (s.nextServerIndex + 1 + (k₂ : Int))
        = (k₁ : Int) - k₂ := by ring
    calc ((k₁ : Int) - k₂) % (s.serverAddresses.length : Int)
        = (s.nextServerIndex + 1 + (k₁ : Int) - (s.nextServerIndex + 1 + (k₂ : Int)))
            % (s.serverAddresses.length : Int) := by rw [harith]
      _ = ((s.nextServerIndex + 1 + (k₁ : Int)) % (s.serverAddresses.length : Int)
            - (s.nextServerIndex + 1 + (k₂ : Int)) % (s.serverAddresses.length : Int))
            % (s.serverAddresses.length : Int) := by rw [Int.sub_emod]
      _ = 0 := by rw [heq]; simp
  obtain ⟨t, ht⟩ := Int.dvd_of_emod_eq_zero hd
  have hk1 : (k₁ : Int) < (s.serverAddresses.length : Int) := by exact_mod_cast h1
  have hk2 : (k₂ : Int) < (s.serverAddresses.length : Int) := by exact_mod_cast h2
  have ht0 : t = 0 := by
    rcases lt_trichotomy t 0 with hneg | h0 | hpos
    · exfalso
      have hle : t ≤ -1 := by omega
      have hmul : (s.serverAddresses.length : Int) * t
          ≤ (s.serverAddresses.length : Int) * (-1) :=
        mul_le_mul_of_nonneg_left hle (le_of_lt hNpos)
      rw [mul_neg_one, ← ht] at hmul
      omega
    · exact h0
    · exfalso
      have hle : (1 : Int) ≤ t := by omega
      have hmul : (s.serverAddresses.length : Int) * 1
          ≤ (s.serverAddresses.length : Int) * t :=
        mul_le_mul_of_nonneg_left hle (le_of_lt hNpos)
      rw [mul_one, ← ht] at hmul
      omega
  rw [ht0, mul_zero] at ht
  omega

/-- Witness for C6 at a two-endpoint pool with a fresh cursor. -/
theorem C6_witness :
    selectedAt (poolInit [addrA, addrB] 5 false) 0 0
      = (poolInit [addrA, addrB] 5 false).serverAddresses.getD
          ((((poolInit [addrA, addrB] 5 false).nextServerIndex + 1 + ((0 : Nat) : Int))
              % ((poolInit [addrA, addrB] 5 false).serverAddresses.length : Int)).toNat)
          default :=
  ((C6_round_robin_cycle (poolInit [addrA, addrB] 5 false) 0 rfl (by decide)).1 0).1

/-! ### C7 -/

/-- Deleting a key removes its binding. -/
theorem oorLookup_delete (m : List (String × Nat)) (k : String) :
    oorLookup (oorDelete m k) k = none := by
  induction m with
  | nil => rfl
  | cons p rest ih =>
    by_cases hp : p.1 = k
    · simpa [oorDelete, List.filter, hp] using ih
    · simpa [oorDelete, List.filter, hp, oorLookup] using ih

/-- Unfolding of one scan step. -/
theorem nextServerScan_succ (addrs : List Address) (now candidate i fuel : Nat)
    (oor : List (String × Nat)) (lastIdx : Int) :
    nextServerScan addrs now candidate i (fuel + 1) oor lastIdx
      = (match oorLookup oor
            (reprForIPv4Address (addrs.getD ((candidate + i) % addrs.length) default)) with
         | some expiry =>
            if now > expiry
            then (addrs.getD ((candidate + i) % addrs.length) default,
                  (((candidate + i) % addrs.length : Nat) : Int),
                  oorDelete oor
                    (reprForIPv4Address (addrs.getD ((candidate + i) % addrs.length) default)))
            else nextServerScan addrs now candidate (i + 1) fuel oor
                  (((candidate + i) % addrs.length : Nat) : Int)
         | none => (addrs.getD ((candidate + i) % addrs.length) default,
                    (((candidate + i) % addrs.length : Nat) : Int), oor)) := rfl

/-- Soundness of the scan loop: either every position it may look at (the
`fuel` positions from `candidate + i` on) is under an unexpired exclusion
(the fail-open situation), or the endpoint it returns has no unexpired
record — its key is absent, or was expired and has been deleted from the
resulting table. -/
theorem nextServerScan_sound (addrs : List Address) (now candidate : Nat) :
    ∀ (fuel i : Nat) (oor : List (String × Nat)) (lastIdx : Int),
      (∀ j, j < fuel → excludedUnexpired oor now
          (reprForIPv4Address
            (addrs.getD ((candidate + i + j) % addrs.length) default)) = true)
      ∨ ((∀ e, oorLookup oor
            (reprForIPv4Address (nextServerScan addrs now candidate i fuel oor lastIdx).1)
              = some e → now > e)
         ∧ oorLookup (nextServerScan addrs now candidate i fuel oor lastIdx).2.2
            (reprForIPv4Address (nextServerScan addrs now candidate i fuel oor lastIdx).1)
              = none) := by
  intro fuel
  induction fuel with
  | zero =>
    intro i oor lastIdx
    exact Or.inl (fun j hj => absurd hj (Nat.not_lt_zero j))
  | succ fuel ih =>
    intro i oor lastIdx
    rw [nextServerScan_succ]
    cases hlk : oorLookup oor
        (reprForIPv4Address (addrs.getD ((candidate + i) % addrs.length) default)) with
    | none =>
      refine Or.inr ⟨?_, ?_⟩
      · intro e he
        rw [hlk] at he
        exact absurd he (by simp)
      · exact hlk
    | some expiry =>
      dsimp only
      by_cases hexp : now > expiry
      · rw [if_pos hexp]
        refine Or.inr ⟨?_, ?_⟩
        · intro e he
          rw [hlk] at he
          obtain rfl : expiry = e := Option.some.inj he
          exact hexp
        · exact oorLookup_delete oor _
      · rw [if_neg hexp]
        rcases ih (i + 1) oor (((candidate + i) % addrs.length : Nat) : Int)
          with hleft | hright
        · refine Or.inl ?_
          intro j hj
          cases j with
          | zero =>
            show excludedUnexpired oor now _ = true
            rw [Nat.add_zero]
            unfold excludedUnexpired
            rw [hlk]
            simpa using Nat.not_lt.mp hexp
          | succ j' =>
            have h := hleft j' (by omega)
            have harith : candidate + (i + 1) + j' = candidate + i + (j' + 1) := by omega
            rwa [harith] at h
        · exact Or.inr hright

/-- C7 counterexample: with a single endpoint whose exclusion record is
still unexpired (excluded at time 90 for the fixed 10-second window, current
time 95 < 100), `_nextServerAddress` nevertheless returns that endpoint —
the scan fails open when every endpoint is excluded, contradicting the
claim that an excluded endpoint is never selected before its expiry. -/
theorem C7_counterexample_fail_open :
    (nextServerAddress c7State 95).1 = addrA
    ∧ oorLookup c7State.serverOORRecords (reprForIPv4Address addrA) = some 100
    ∧ (95 : Nat) < 100 := by
  decide

/-- C7 as amended: provided not every endpoint is under an unexpired
exclusion (otherwise the scan deliberately fails open and returns an
excluded endpoint), the selection never returns an endpoint whose exclusion
is unexpired — any record its key has must satisfy `now > expiry` — and
after the selection the returned endpoint's record is gone from the
out-of-rotation table (a stale record is deleted lazily on lookup), leaving
it selectable again. -/
theorem C7_amended_exclusion_respected (s : PoolState) (now : Nat)
    (hN : 0 < s.serverAddresses.length)
    (hsome : ∃ m, m < s.serverAddresses.length ∧
        excludedUnexpired s.serverOORRecords now
          (reprForIPv4Address (s.serverAddresses.getD m default)) = false) :
    (∀ e, oorLookup s.serverOORRecords
        (reprForIPv4Address (nextServerAddress s now).1) = some e → now > e)
    ∧ oorLookup (nextServerAddress s now).2.serverOORRecords
        (reprForIPv4Address (nextServerAddress s now).1) = none := by
  obtain ⟨m, hm, hmx⟩ := hsome
  have hNpos : (0 : Int) < (s.serverAddresses.length : Int) := by exact_mod_cast hN
  have hnonneg : 0 ≤ (s.nextServerIndex + 1) % (s.serverAddresses.length : Int) :=
    Int.emod_nonneg _ (ne_of_gt hNpos)
  have hltI : (s.nextServerIndex + 1) % (s.serverAddresses.length : Int)
      < (s.serverAddresses.length : Int) := Int.emod_lt_of_pos _ hNpos
  have hcandlt : ((s.nextServerIndex + 1) % (s.serverAddresses.length : Int)).toNat
      < s.serverAddresses.length := by omega
  rcases nextServerScan_sound s.serverAddresses now
      ((s.nextServerIndex + 1) % (s.serverAddresses.length : Int)).toNat
      s.serverAddresses.length 0 s.serverOORRecords s.nextServerIndex
    with hleft | hright
  · exfalso
    have hjlt : (m + s.serverAddresses.length
        - ((s.nextServerIndex + 1) % (s.serverAddresses.length : Int)).toNat)
          % s.serverAddresses.length < s.serverAddresses.length :=
      Nat.mod_lt _ hN
    have h := hleft _ hjlt
    have hidx : (((s.nextServerIndex + 1) % (s.serverAddresses.length : Int)).toNat + 0
        + (m + s.serverAddresses.length
            - ((s.nextServerIndex + 1) % (s.serverAddresses.length : Int)).toNat)
              % s.serverAddresses.length) % s.serverAddresses.length = m := by
      rw [Nat.add_zero, Nat.add_mod_mod]
      have harith : ((s.nextServerIndex + 1) % (s.serverAddresses.length : Int)).toNat
          + (m + s.serverAddresses.length
              - ((s.nextServerIndex + 1) % (s.serverAddresses.length : Int)).toNat)
          = m + s.serverAddresses.length := by omega
      rw [harith, Nat.add_mod_right]
      exact Nat.mod_eq_of_lt hm
    rw [hidx, hmx] at h
    exact absurd h (by decide)
  · exact hright

/-- Witness for C7 (amended) at a pool whose only endpoint's record has
expired: the selection deletes the stale record. -/
theorem C7_witness :
    oorLookup (nextServerAddress c7State 200).2.serverOORRecords
      (reprForIPv4Address (nextServerAddress c7State 200).1) = none :=
  (C7_amended_exclusion_respected c7State 200 (by decide)
    ⟨0, by decide, by decide⟩).2

end Txconnpool
